import Mathlib

/-!
Shallow embedding of `ds9SAMP/launcher.py` (class `DS9`): a supervisor that
spawns a ds9 viewer process, connects to a private SAMP hub, discovers the
viewer by its advertised `samp.name`, runs a liveness watchdog, serializes
SAMP traffic behind a lock, and tears everything down idempotently.

Python strings are modelled as `List Char`; wall-clock instants and durations
as exact rationals; raised exceptions as values of `PyExc` in an `Except`
monad; the potentially unbounded retry loops take a fuel argument (`none`
means the fuel ran out before the loop decided).
-/

set_option autoImplicit false

namespace Ds9SAMP

/-- Exceptions that the launcher code can raise or observe.  `sampHubError`
is astropy's `SAMPHubError`; `hubNotFound` and `ds9NotFound` are the two
`RuntimeError`s raised by `DS9.__init__`; `exc tag` stands for any other
exception object (the tag distinguishes distinct objects). -/
inductive PyExc where
  | sampHubError
  | hubNotFound
  | ds9NotFound
  | exc (tag : Nat)
deriving DecidableEq

/-! ## Endpoint-name sanitization

Source line: `samp_hub_name = re.sub(r'[^A-Za-z0-9\\.]', '_', samp_hub_name)`.
The pattern is a raw string, so the regex engine sees the class
`[^A-Za-z0-9\\.]`: inside a character class `\\` is an escaped (literal)
backslash and `.` is a literal dot.  Hence the characters that the source
KEEPS are `A`-`Z`, `a`-`z`, `0`-`9`, the backslash, and the dot; every other
character is replaced by an underscore. -/

/-- Characters preserved by the source's `re.sub` character class
`[^A-Za-z0-9\\.]` (note: the raw-string `\\` makes the literal backslash a
kept character). -/
def keepChar (c : Char) : Bool :=
  (decide ('A' ≤ c) && decide (c ≤ 'Z')) ||
  (decide ('a' ≤ c) && decide (c ≤ 'z')) ||
  (decide ('0' ≤ c) && decide (c ≤ '9')) ||
  c == '\\' || c == '.'

/-- Characters the spec's sanitization contract keeps: the
"alphanumeric-plus-dot set (A-Z, a-z, 0-9, '.')", with no backslash. -/
def specKeepChar (c : Char) : Bool :=
  (decide ('A' ≤ c) && decide (c ≤ 'Z')) ||
  (decide ('a' ≤ c) && decide (c ≤ 'z')) ||
  (decide ('0' ≤ c) && decide (c ≤ '9')) ||
  c == '.'

/-- Action of `re.sub(r'[^A-Za-z0-9\\.]', '_', ·)` on one character. -/
def sanitizeChar (c : Char) : Char :=
  if keepChar c then c else '_'

/-- The source's sanitization: `re.sub` applied over the whole name. -/
def sanitize (s : List Char) : List Char :=
  s.map sanitizeChar

/-- Modelled from the spec's words (for comparison with `sanitize`):
replace every character outside the alphanumeric-plus-dot set with an
underscore. -/
def specSanitize (s : List Char) : List Char :=
  s.map (fun c => if specKeepChar c then c else '_')

/-! ## Hub endpoint name

`samp_hub_name = f"{title}_utc{tnow.strftime('%Y%m%dT%H%M%S')}.{tnow.microsecond:06d}_pid{self.__pid}"`
sanitized, then `self.__samp_hub_file = f"{SAMP_HUB_PATH}/{samp_hub_name}.samp"`. -/

/-- Decimal digit character, `chr(48 + d)` for `d < 10`. -/
def digitChar (d : Nat) : Char :=
  Char.ofNat (48 + d)

/-- Python `%02d` on the in-range fields of a `datetime` value. -/
def pad2 (n : Nat) : List Char :=
  [digitChar (n / 10 % 10), digitChar (n % 10)]

/-- Python `%04d` (the `%Y` field of `strftime` for years below 10000). -/
def pad4 (n : Nat) : List Char :=
  [digitChar (n / 1000 % 10), digitChar (n / 100 % 10),
   digitChar (n / 10 % 10), digitChar (n % 10)]

/-- Python `f"{n:06d}"` for `n < 1000000` (the `datetime.microsecond`
invariant): six zero-padded decimal digits. -/
def pad6 (n : Nat) : List Char :=
  [digitChar (n / 100000 % 10), digitChar (n / 10000 % 10),
   digitChar (n / 1000 % 10), digitChar (n / 100 % 10),
   digitChar (n / 10 % 10), digitChar (n % 10)]

/-- A UTC timestamp truncated to whole seconds (the part of `tnow` consumed
by `strftime('%Y%m%dT%H%M%S')`); the microsecond is passed separately, as in
the source's f-string. -/
structure DateSec where
  year : Nat
  month : Nat
  day : Nat
  hour : Nat
  minute : Nat
  second : Nat
deriving DecidableEq

/-- `tnow.strftime('%Y%m%dT%H%M%S')`. -/
def strftimeYmdTHMS (d : DateSec) : List Char :=
  pad4 d.year ++ pad2 d.month ++ pad2 d.day ++ ['T'] ++
  pad2 d.hour ++ pad2 d.minute ++ pad2 d.second

/-- The sanitized `samp_hub_name` built from title, second-resolution UTC
timestamp, microsecond, and pid. -/
def sampHubName (title : List Char) (d : DateSec) (micro pid : Nat) : List Char :=
  sanitize (title ++ "_utc".data ++ strftimeYmdTHMS d ++ ".".data ++
    pad6 micro ++ "_pid".data ++ (Nat.repr pid).data)

/-- `self.__samp_hub_file = f"{SAMP_HUB_PATH}/{samp_hub_name}.samp"`. -/
def sampHubFile (base title : List Char) (d : DateSec) (micro pid : Nat) : List Char :=
  base ++ "/".data ++ sampHubName title d micro pid ++ ".samp".data

/-! ## Teardown (`DS9.exit`)

The body of `DS9.exit(self, use_callback=True, main_thread=True)` is a fixed
sequence of steps, each wrapped in its own bare `try: ... except: pass`; the
join of the watcher runs only under `if main_thread:`, the callback only
under `if self.exit_callback:` (truthiness of the configured callback) and
the host kill only under `if self.kill_on_exit:`.  The `use_callback`
parameter appears in the signature but nowhere in the body. -/

/-- The individual teardown steps of `DS9.exit`, in source order. -/
inductive TeardownStep where
  | setEvtExit
  | joinWatcher
  | sendExit
  | killProcess
  | unlinkHubFile
  | exitCallback
  | killHost
deriving DecidableEq

/-- Configuration fixed at construction time that `DS9.exit` consults:
truthiness of `self.exit_callback` and of `self.kill_on_exit`. -/
structure ExitCfg where
  exit_callback : Bool
  kill_on_exit : Bool
deriving DecidableEq

/-- The environment decides, for each teardown step, whether executing it
raises (`some e`) or succeeds (`none`). -/
def TeardownEnv : Type := TeardownStep → Option PyExc

/-- One `try: step() except: pass` block: the step is attempted and any
exception it raises is swallowed; the emitted record carries the step and
whether it succeeded. -/
def attemptStep (env : TeardownEnv) (s : TeardownStep) :
    Except PyExc (List (TeardownStep × Bool)) :=
  match env s with
  | none => .ok [(s, true)]
  | some _ => .ok [(s, false)]

/-- The body of `DS9.exit`: each step in source order, each behind its own
bare `try`/`except`, with the three conditional steps guarded as in the
source.  The result collects the attempted steps; an `error` result would
mean an exception escaped `exit` to its caller. -/
def DS9exit (cfg : ExitCfg) (env : TeardownEnv) (use_callback main_thread : Bool) :
    Except PyExc (List (TeardownStep × Bool)) := do
  let t1 ← attemptStep env .setEvtExit
  let t2 ← if main_thread then attemptStep env .joinWatcher else .ok []
  let t3 ← attemptStep env .sendExit
  let t4 ← attemptStep env .killProcess
  let t5 ← attemptStep env .unlinkHubFile
  let t6 ← if cfg.exit_callback then attemptStep env .exitCallback else .ok []
  let t7 ← if cfg.kill_on_exit then attemptStep env .killHost else .ok []
  return t1 ++ t2 ++ t3 ++ t4 ++ t5 ++ t6 ++ t7

/-- The steps `DS9.exit` attempts, a function of the configuration and the
`main_thread` flag only — independent of which steps fail. -/
def exitSteps (cfg : ExitCfg) (main_thread : Bool) : List TeardownStep :=
  .setEvtExit :: ((if main_thread then [.joinWatcher] else []) ++
    [.sendExit, .killProcess, .unlinkHubFile] ++
    (if cfg.exit_callback then [.exitCallback] else []) ++
    (if cfg.kill_on_exit then [.killHost] else []))

/-- The full trace `DS9.exit` produces under a given environment. -/
def exitTrace (cfg : ExitCfg) (env : TeardownEnv) (main_thread : Bool) :
    List (TeardownStep × Bool) :=
  (exitSteps cfg main_thread).map (fun s => (s, (env s).isNone))

/-! ## Hub connect retry loop

Source: `while True: try: self.__samp.connect(); break except SAMPHubError:
if time.time() - tstart > timeout: raise RuntimeError("hub not found ...");
time.sleep(init_retry_time)`.  An attempt's outcome is `ok` (connected),
`hubError` (`SAMPHubError`, the only caught class), or `raises e` (any other
exception, uncaught). -/

/-- Outcome of one `self.__samp.connect()` attempt. -/
inductive ConnectOutcome where
  | ok
  | hubError
  | raises (e : PyExc)
deriving DecidableEq

/-- The connect loop: `connect j` is the outcome of the j-th attempt and
`elapsed j` the value of `time.time() - tstart` observed in the deadline
check after the j-th attempt fails.  The result pairs the loop's outcome
with the number of `time.sleep(init_retry_time)` calls performed; `none`
means the fuel ran out before the loop decided. -/
def hubConnectLoop (connect : Nat → ConnectOutcome) (elapsed : Nat → ℚ)
    (timeout : ℚ) : Nat → Nat → Option (Except PyExc Unit × Nat)
  | 0, _ => none
  | fuel + 1, i =>
    match connect i with
    | .ok => some (.ok (), 0)
    | .raises e => some (.error e, 0)
    | .hubError =>
      if elapsed i > timeout then some (.error .hubNotFound, 0)
      else (hubConnectLoop connect elapsed timeout fuel (i + 1)).map
        (fun r => (r.1, r.2 + 1))

/-! ## Peer discovery

Source, `DS9.__get_samp_clientId`: iterate over
`self.__samp.get_subscribed_clients('ds9.set')`, fetch each candidate's
metadata, return the first `c_id` with `c_meta['samp.name'] == title`, else
`None`.  The constructor's second wait loop assigns the result to
`self.__samp_clientId` and breaks when it is truthy (`if self.__samp_clientId:`
— in Python both `None` and the empty string are falsy); after a falsy pass it
checks the shared deadline and sleeps. -/

/-- One discovery pass: `meta cid` models
`self.__samp.get_metadata(cid)['samp.name']`; the list is the encounter
order of `get_subscribed_clients('ds9.set')`. -/
def get_samp_clientId (meta : String → String) (title : String) :
    List String → Option String
  | [] => none
  | cid :: rest =>
    if meta cid = title then some cid else get_samp_clientId meta title rest

/-- The wait-for-ds9 loop: pass `j` sees client list `passClients j` with
metadata `passMeta j`; `elapsed j` is `time.time() - tstart` at the deadline
check after a falsy pass `j`.  `none` means the fuel ran out. -/
def ds9DiscoverLoop (passClients : Nat → List String) (passMeta : Nat → String → String)
    (title : String) (elapsed : Nat → ℚ) (timeout : ℚ) :
    Nat → Nat → Option (Except PyExc String)
  | 0, _ => none
  | fuel + 1, i =>
    match get_samp_clientId (passMeta i) title (passClients i) with
    | some cid =>
      if cid = "" then
        if elapsed i > timeout then some (.error .ds9NotFound)
        else ds9DiscoverLoop passClients passMeta title elapsed timeout fuel (i + 1)
      else some (.ok cid)
    | none =>
      if elapsed i > timeout then some (.error .ds9NotFound)
      else ds9DiscoverLoop passClients passMeta title elapsed timeout fuel (i + 1)

/-! ## Command gateway: `DS9.set`

Source: `def set(self, *cmds, timeout=10): with self.__lock: for cmd in
cmds: self.__samp.ecall_and_wait(self.__samp_clientId, 'ds9.set', ..., cmd=cmd)`.
Each `ecall_and_wait` blocks until the peer acknowledges (or raises); an
exception aborts the remaining iterations and propagates, and the `with`
block releases the lock on both paths. -/

/-- Protocol-level events observable on the shared SAMP connection. -/
inductive GwEvent where
  | lockAcquire
  | call (mtype cmd : String)
  | notifyPing
  | lockRelease
deriving DecidableEq

/-- The `for cmd in cmds` body: `ack k` is the outcome of awaiting the
acknowledgment of the k-th `ecall_and_wait` of this `set` invocation
(`none` = acknowledged, `some e` = the call raised `e`).  Returns the
result together with the commands actually issued, in order. -/
def setLoop (ack : Nat → Option PyExc) : Nat → List String →
    Except PyExc Unit × List String
  | _, [] => (.ok (), [])
  | k, c :: rest =>
    match ack k with
    | some e => (.error e, [c])
    | none =>
      let r := setLoop ack (k + 1) rest
      (r.1, c :: r.2)

/-- `DS9.set`: the command loop run while holding `self.__lock`; the lock is
released on both the normal and the exceptional path. -/
def DS9set (ack : Nat → Option PyExc) (cmds : List String) :
    Except PyExc Unit × List GwEvent :=
  let r := setLoop ack 0 cmds
  (r.1, GwEvent.lockAcquire ::
    (r.2.map (fun c => GwEvent.call "ds9.set" c) ++ [GwEvent.lockRelease]))

/-! ## Watchdog: `DS9.alive` and `DS9.__watch_thread`

Source: `alive` notifies `samp.app.ping` under the lock and returns whether
the response equals the string OK, returning `False` if anything raises;
`__watch_thread` loops on `self.__evtexit.wait(timeout=period)`, breaking
when the event is set, otherwise probing `alive()` and breaking when the
probe fails; after the loop it calls `self.exit(main_thread=False)`. -/

/-- What the watchdog observes at one iteration: whether `evtexit.wait`
returned `True` (the exit signal was set by wake-up time) and, had a probe
been issued, the outcome of `enotify(clientId, 'samp.app.ping')`. -/
structure WatchIter where
  signalSet : Bool
  ping : Except PyExc String

/-- `DS9.alive`: the truth value computed from the ping outcome — the
peer-specific acknowledgment string OK means alive; any raised exception
means not alive. -/
def aliveModel (p : Except PyExc String) : Bool :=
  match p with
  | .ok s => s == "OK"
  | .error _ => false

/-- The protocol events of one `DS9.alive` call: the probe runs between
lock acquisition and release (the `with` block releases the lock on the
exceptional path too). -/
def aliveEvents (p : Except PyExc String) : List GwEvent :=
  match p with
  | .ok _ => [.lockAcquire, .notifyPing, .lockRelease]
  | .error _ => [.lockAcquire, .notifyPing, .lockRelease]

/-- The `while True` loop of `__watch_thread`: returns the list of iteration
indices at which a ping was issued, paired with `true` when the loop exited
because the signal was set and `false` when it exited because a probe
failed; `none` means the fuel ran out while the peer stayed alive. -/
def watchLoop (iter : Nat → WatchIter) : Nat → Nat → Option (List Nat × Bool)
  | 0, _ => none
  | fuel + 1, i =>
    if (iter i).signalSet then some ([], true)
    else if aliveModel (iter i).ping then
      (watchLoop iter fuel (i + 1)).map (fun r => (i :: r.1, r.2))
    else some ([i], false)

/-- `DS9.__watch_thread`: run the loop, then call
`self.exit(main_thread=False)` (with `use_callback` left at its default
`True`).  The second component records the argument pair
`(use_callback, main_thread)` of that teardown call. -/
def watchThread (iter : Nat → WatchIter) (fuel : Nat) :
    Option ((List Nat × Bool) × Bool × Bool) :=
  (watchLoop iter fuel 0).map (fun r => (r, true, false))

/-! ## Constructor: `DS9.__init__`

The construction phases inside the `try:` block — endpoint setup (mkdir and
hub-file naming), spawn (`subprocess.Popen`), hub connect, peer discovery,
watchdog start — wrapped by `except Exception as e: self.exit(); raise e`.
The exit call uses the default arguments `use_callback=True,
main_thread=True`. -/

/-- Environment for one construction run: which fallible phases raise, the
per-attempt outcomes of the two retry loops, and the teardown environment
used if construction fails. -/
structure InitEnv where
  mkdirFails : Option PyExc
  spawnFails : Option PyExc
  connect : Nat → ConnectOutcome
  connElapsed : Nat → ℚ
  passClients : Nat → List String
  passMeta : Nat → String → String
  discElapsed : Nat → ℚ
  watchdogFails : Option PyExc
  teardown : TeardownEnv

/-- The state a successful construction returns: the computed hub endpoint
file, whether the child process was spawned, whether the SAMP client
connected, the discovered client id, and whether the watcher thread was
started. -/
structure DS9State where
  samp_hub_file : List Char
  processSpawned : Bool
  sampConnected : Bool
  samp_clientId : Option String
  watcherStarted : Bool

/-- The `try:` block of `DS9.__init__`: each phase in source order; the
first phase exception aborts the block with that exception.  `none` means a
retry loop ran out of fuel before deciding. -/
def DS9initBody (title : String) (timeout poll_alive_time : ℚ) (base : List Char)
    (d : DateSec) (micro pid : Nat) (env : InitEnv) (fuel : Nat) :
    Option (Except PyExc DS9State) :=
  match env.mkdirFails with
  | some e => some (.error e)
  | none =>
    let hubFile := sampHubFile base title.data d micro pid
    match env.spawnFails with
    | some e => some (.error e)
    | none =>
      match hubConnectLoop env.connect env.connElapsed timeout fuel 0 with
      | none => none
      | some (.error e, _) => some (.error e)
      | some (.ok _, _) =>
        match ds9DiscoverLoop env.passClients env.passMeta title env.discElapsed
            timeout fuel 0 with
        | none => none
        | some (.error e) => some (.error e)
        | some (.ok cid) =>
          if poll_alive_time > 0 then
            match env.watchdogFails with
            | some e => some (.error e)
            | none => some (.ok ⟨hubFile, true, true, some cid, true⟩)
          else some (.ok ⟨hubFile, true, true, some cid, false⟩)

/-- `DS9.__init__` with its `except Exception as e: self.exit(); raise e`
wrapper: on a phase exception the full teardown runs (its attempted-step
trace is attached to the re-raised exception); if the teardown itself
escaped with an exception, that exception would replace the original. -/
def DS9init (title : String) (timeout poll_alive_time : ℚ) (base : List Char)
    (d : DateSec) (micro pid : Nat) (cfg : ExitCfg) (env : InitEnv) (fuel : Nat) :
    Option (Except (PyExc × List (TeardownStep × Bool)) DS9State) :=
  match DS9initBody title timeout poll_alive_time base d micro pid env fuel with
  | none => none
  | some (.ok st) => some (.ok st)
  | some (.error e) =>
    match DS9exit cfg env.teardown true true with
    | .ok tr => some (.error (e, tr))
    | .error e2 => some (.error (e2, []))

/-- Example timestamp used by the construction witnesses. -/
def dEx : DateSec := ⟨2026, 10, 12, 3, 4, 5⟩

/-- Example environment whose endpoint-setup phase (mkdir) raises. -/
def envFailEx : InitEnv :=
  ⟨some (.exc 7), none, fun _ => .ok, fun _ => 0, fun _ => ["c1"],
   fun _ _ => "ds9w", fun _ => 0, none, fun _ => none⟩

/-- Example environment in which every construction phase succeeds at the
first attempt. -/
def envOkEx : InitEnv :=
  ⟨none, none, fun _ => .ok, fun _ => 0, fun _ => ["c1"],
   fun _ _ => "ds9w", fun _ => 0, none, fun _ => none⟩

/-- The state the successful example construction returns. -/
def stEx : DS9State :=
  ⟨sampHubFile "/h".data "ds9w".data dEx 1 2, true, true, some "c1", true⟩

/-! ## Theorems -/

/-! ## Helper lemmas about the sanitizer and the name components -/

theorem sanitizeChar_idem (c : Char) : sanitizeChar (sanitizeChar c) = sanitizeChar c := by
  by_cases h : keepChar c = true
  · simp [sanitizeChar, h]
  · have hu : sanitizeChar c = '_' := by simp [sanitizeChar, h]
    rw [hu]
    decide

theorem digitChar_inj (a b : Nat) (ha : a < 10) (hb : b < 10)
    (h : digitChar a = digitChar b) : a = b := by
  unfold digitChar at h
  interval_cases a <;> interval_cases b <;> revert h <;> decide

theorem sanitizeChar_digitChar (d : Nat) (hd : d < 10) :
    sanitizeChar (digitChar d) = digitChar d := by
  interval_cases d <;> decide

theorem map_sanitizeChar_pad6 (m : Nat) :
    List.map sanitizeChar (pad6 m) = pad6 m := by
  have h : ∀ x : Nat, sanitizeChar (digitChar (x % 10)) = digitChar (x % 10) :=
    fun x => sanitizeChar_digitChar _ (Nat.mod_lt _ (by norm_num))
  simp [pad6, h]

theorem pad6_inj (m1 m2 : Nat) (h1 : m1 < 1000000) (h2 : m2 < 1000000)
    (h : pad6 m1 = pad6 m2) : m1 = m2 := by
  simp only [pad6, List.cons.injEq, and_true] at h
  obtain ⟨e1, e2, e3, e4, e5, e6⟩ := h
  have n1 := digitChar_inj _ _ (Nat.mod_lt _ (by norm_num)) (Nat.mod_lt _ (by norm_num)) e1
  have n2 := digitChar_inj _ _ (Nat.mod_lt _ (by norm_num)) (Nat.mod_lt _ (by norm_num)) e2
  have n3 := digitChar_inj _ _ (Nat.mod_lt _ (by norm_num)) (Nat.mod_lt _ (by norm_num)) e3
  have n4 := digitChar_inj _ _ (Nat.mod_lt _ (by norm_num)) (Nat.mod_lt _ (by norm_num)) e4
  have n5 := digitChar_inj _ _ (Nat.mod_lt _ (by norm_num)) (Nat.mod_lt _ (by norm_num)) e5
  have n6 := digitChar_inj _ _ (Nat.mod_lt _ (by norm_num)) (Nat.mod_lt _ (by norm_num)) e6
  omega

/-! ## Claim theorems about sanitization and endpoint naming -/

/-- C9: the endpoint-name sanitization is idempotent — applying `sanitize`
to an already-sanitized string yields the same string. -/
theorem sanitize_idempotent (s : List Char) : sanitize (sanitize s) = sanitize s := by
  induction s with
  | nil => rfl
  | cons c t ih =>
    simp only [sanitize, List.map_cons] at ih ⊢
    exact congrArg₂ List.cons (sanitizeChar_idem c) ih

/-- C7: evaluation at the failing input.  The source's character class
(raw string `[^A-Za-z0-9\\.]`) keeps the literal backslash, so the title
fragment consisting of the characters a, backslash, b survives sanitization
unchanged, while the spec's alphanumeric-plus-dot contract demands the
backslash be replaced by an underscore. -/
theorem sanitize_keeps_backslash :
    sanitize ['a', '\\', 'b'] = ['a', '\\', 'b'] ∧
    specSanitize ['a', '\\', 'b'] = ['a', '_', 'b'] ∧
    specKeepChar '\\' = false := by
  decide

/-- C8 counterexample: two construction events in the same process (pid
4242) within the same wall-clock second whose clock readings coincide on the
microsecond as well produce EQUAL `hubEndpointPath` values — the pid cannot
disambiguate two instances of the same process, so distinctness is not
guaranteed for every same-second pair. -/
theorem hub_name_same_micro_collision :
    sampHubFile "/h/.samp-ds9".data "ds9SAMP".data ⟨2026, 10, 12, 3, 4, 5⟩ 123456 4242 =
    sampHubFile "/h/.samp-ds9".data "ds9SAMP".data ⟨2026, 10, 12, 3, 4, 5⟩ 123456 4242 := rfl

/-- C8 (amended): two Supervisors constructed in the same process (equal
pid) and the same wall-clock second produce distinct `hubEndpointPath`
values provided the microsecond components of their creation timestamps
differ; within one process the pid contributes nothing to distinctness. -/
theorem hub_name_distinct_micro (base title : List Char) (d : DateSec) (m1 m2 pid : Nat)
    (h1 : m1 < 1000000) (h2 : m2 < 1000000) (hne : m1 ≠ m2) :
    sampHubFile base title d m1 pid ≠ sampHubFile base title d m2 pid := by
  intro h
  apply hne
  have e1 : sampHubName title d m1 pid = sampHubName title d m2 pid :=
    List.append_cancel_left (List.append_cancel_right h)
  simp only [sampHubName, sanitize, List.map_append, map_sanitizeChar_pad6,
    List.append_assoc] at e1
  have e2 := List.append_cancel_left e1
  have e3 := List.append_cancel_left e2
  have e4 := List.append_cancel_left e3
  have e5 := List.append_cancel_left e4
  have e6 := (List.append_inj e5 rfl).1
  exact pad6_inj _ _ h1 h2 e6

/-- Witness for the amended C8 theorem at a concrete instant. -/
theorem hub_name_distinct_micro_witness :
    123 < 1000000 ∧ 124 < 1000000 ∧ 123 ≠ 124 ∧
    sampHubFile "/h/.samp-ds9".data "ds9SAMP".data ⟨2026, 10, 12, 3, 4, 5⟩ 123 77 ≠
    sampHubFile "/h/.samp-ds9".data "ds9SAMP".data ⟨2026, 10, 12, 3, 4, 5⟩ 124 77 :=
  ⟨by decide, by decide, by decide,
    hub_name_distinct_micro _ _ _ _ _ _ (by decide) (by decide) (by decide)⟩

theorem attemptStep_eq (env : TeardownEnv) (s : TeardownStep) :
    attemptStep env s = .ok [(s, (env s).isNone)] := by
  unfold attemptStep
  cases env s <;> rfl

theorem DS9exit_spec (cfg : ExitCfg) (env : TeardownEnv) (u m : Bool) :
    DS9exit cfg env u m = .ok (exitTrace cfg env m) := by
  obtain ⟨cb, ko⟩ := cfg
  cases m <;> cases cb <;> cases ko <;>
    simp [DS9exit, attemptStep_eq, exitTrace, exitSteps, bind, Except.bind, pure, Except.pure]

theorem exitTrace_steps (cfg : ExitCfg) (env : TeardownEnv) (m : Bool) :
    (exitTrace cfg env m).map Prod.fst = exitSteps cfg m := by
  simp [exitTrace, List.map_map, Function.comp_def]

/-- C1: `DS9.exit` never raises to its caller under any combination of
per-step failures (so also on a second invocation after a completed run,
whose step failures are just another environment), and the list of attempted
steps is always the full applicable sequence — a failure in one step never
prevents the subsequent steps from executing. -/
theorem teardown_never_raises (cfg : ExitCfg) (env env2 : TeardownEnv)
    (u u2 m : Bool) :
    DS9exit cfg env u m = .ok (exitTrace cfg env m) ∧
    (exitTrace cfg env m).map Prod.fst = exitSteps cfg m ∧
    DS9exit cfg env2 u2 m = .ok (exitTrace cfg env2 m) := by
  exact ⟨DS9exit_spec cfg env u m, exitTrace_steps cfg env m, DS9exit_spec cfg env2 u2 m⟩

/-- C10: the `use_callback` parameter of `DS9.exit` is never consulted — the
result is identical for any two values of it, and whenever an exit callback
is configured the callback step is attempted even with `use_callback=False`
(the value passed by `__del__` and the `atexit` hook). -/
theorem use_callback_ignored (cfg : ExitCfg) (env : TeardownEnv) (m : Bool) :
    (∀ u v : Bool, DS9exit cfg env u m = DS9exit cfg env v m) ∧
    (cfg.exit_callback = true →
      ∃ tr, DS9exit cfg env false m = .ok tr ∧
        TeardownStep.exitCallback ∈ tr.map Prod.fst) := by
  constructor
  · intro u v
    rw [DS9exit_spec cfg env u m, DS9exit_spec cfg env v m]
  · intro hcb
    refine ⟨exitTrace cfg env m, DS9exit_spec cfg env false m, ?_⟩
    rw [exitTrace_steps]
    simp [exitSteps, hcb]

/-- Witness for C10 with a configured callback. -/
theorem use_callback_ignored_witness :
    (ExitCfg.mk true false).exit_callback = true ∧
    ∃ tr, DS9exit ⟨true, false⟩ (fun _ => none) false true = .ok tr ∧
      TeardownStep.exitCallback ∈ tr.map Prod.fst :=
  ⟨rfl, (use_callback_ignored ⟨true, false⟩ (fun _ => none) true).2 rfl⟩

theorem hubConnectLoop_timeout (connect : Nat → ConnectOutcome) (elapsed : Nat → ℚ)
    (timeout : ℚ) :
    ∀ (k fuel i : Nat), k < fuel →
      (∀ j, j ≤ k → connect (i + j) = .hubError) →
      (∀ j, j < k → ¬ elapsed (i + j) > timeout) →
      elapsed (i + k) > timeout →
      hubConnectLoop connect elapsed timeout fuel i = some (.error .hubNotFound, k) := by
  intro k
  induction k with
  | zero =>
    intro fuel i hf hconn hbefore hlate
    obtain ⟨f, rfl⟩ : ∃ f, fuel = f + 1 := ⟨fuel - 1, by omega⟩
    have h0 : connect i = .hubError := by simpa using hconn 0 (Nat.le_refl 0)
    have hl : elapsed i > timeout := by simpa using hlate
    simp [hubConnectLoop, h0, hl]
  | succ k ih =>
    intro fuel i hf hconn hbefore hlate
    obtain ⟨f, rfl⟩ : ∃ f, fuel = f + 1 := ⟨fuel - 1, by omega⟩
    have h0 : connect i = .hubError := by simpa using hconn 0 (Nat.zero_le _)
    have hnl : ¬ elapsed i > timeout := by simpa using hbefore 0 (Nat.succ_pos _)
    have hrec := ih f (i + 1) (by omega)
      (fun j hj => by
        have := hconn (j + 1) (by omega)
        rwa [show i + (j + 1) = i + 1 + j by omega] at this)
      (fun j hj => by
        have := hbefore (j + 1) (by omega)
        rwa [show i + (j + 1) = i + 1 + j by omega] at this)
      (by
        have := hlate
        rwa [show i + (k + 1) = i + 1 + k by omega] at this)
    simp [hubConnectLoop, h0, hnl, hrec]

/-- C3: the hub-connect phase retries only `SAMPHubError` (sleeping once per
retry), propagates any other connect exception immediately without retrying,
and fails with the hub-not-found `RuntimeError` as soon as a `SAMPHubError`
is observed more than `timeout` seconds after the phase started; in
particular, attempts that keep failing with `SAMPHubError` past the deadline
end in the hub-not-found error. -/
theorem hub_connect_retry_policy (connect : Nat → ConnectOutcome) (elapsed : Nat → ℚ)
    (timeout : ℚ) (fuel i : Nat) :
    (connect i = .ok →
      hubConnectLoop connect elapsed timeout (fuel + 1) i = some (.ok (), 0)) ∧
    (∀ e, connect i = .raises e →
      hubConnectLoop connect elapsed timeout (fuel + 1) i = some (.error e, 0)) ∧
    (connect i = .hubError → elapsed i > timeout →
      hubConnectLoop connect elapsed timeout (fuel + 1) i = some (.error .hubNotFound, 0)) ∧
    (connect i = .hubError → ¬ elapsed i > timeout →
      hubConnectLoop connect elapsed timeout (fuel + 1) i =
        (hubConnectLoop connect elapsed timeout fuel (i + 1)).map
          (fun r => (r.1, r.2 + 1))) ∧
    (∀ k, k < fuel + 1 → (∀ j, j ≤ k → connect j = .hubError) →
      (∀ j, j < k → ¬ elapsed j > timeout) → elapsed k > timeout →
      hubConnectLoop connect elapsed timeout (fuel + 1) 0 =
        some (.error .hubNotFound, k)) := by
  refine ⟨?_, ?_, ?_, ?_, ?_⟩
  · intro h; simp [hubConnectLoop, h]
  · intro e h; simp [hubConnectLoop, h]
  · intro h hl; simp [hubConnectLoop, h, hl]
  · intro h hnl; simp [hubConnectLoop, h, hnl]
  · intro k hk hconn hbefore hlate
    exact hubConnectLoop_timeout connect elapsed timeout k (fuel + 1) 0 hk
      (fun j hj => by simpa using hconn j hj)
      (fun j hj => by simpa using hbefore j hj)
      (by simpa using hlate)

/-- Witness for C3: a non-hub exception propagates at once; a `SAMPHubError`
within the deadline leads to a sleep-and-retry; persistent `SAMPHubError`
past the deadline yields the hub-not-found error after two sleeps. -/
theorem hub_connect_retry_policy_witness :
    hubConnectLoop (fun _ => .raises (.exc 9)) (fun _ => 0) 3 5 0 =
      some (.error (.exc 9), 0) ∧
    hubConnectLoop (fun _ => .hubError) (fun _ => 0) 3 5 0 =
      (hubConnectLoop (fun _ => .hubError) (fun _ => 0) 3 4 1).map
        (fun r => (r.1, r.2 + 1)) ∧
    hubConnectLoop (fun _ => .hubError) (fun j => (j : ℚ) * 2) 3 5 0 =
      some (.error .hubNotFound, 2) :=
  ⟨(hub_connect_retry_policy (fun _ => .raises (.exc 9)) (fun _ => 0) 3 4 0).2.1
      (.exc 9) rfl,
   (hub_connect_retry_policy (fun _ => .hubError) (fun _ => 0) 3 4 0).2.2.2.1
      rfl (by norm_num),
   (hub_connect_retry_policy (fun _ => .hubError) (fun j => (j : ℚ) * 2) 3 4 0).2.2.2.2
      2 (by norm_num)
      (fun j _ => rfl)
      (fun j hj => by interval_cases j <;> norm_num)
      (by norm_num)⟩

theorem get_samp_clientId_none_iff (meta : String → String) (title : String)
    (l : List String) :
    get_samp_clientId meta title l = none ↔ ∀ c ∈ l, meta c ≠ title := by
  induction l with
  | nil => simp [get_samp_clientId]
  | cons c rest ih =>
    by_cases h : meta c = title
    · simp [get_samp_clientId, h]
    · simp [get_samp_clientId, h, ih]

theorem ds9DiscoverLoop_timeout (passClients : Nat → List String)
    (passMeta : Nat → String → String) (title : String) (elapsed : Nat → ℚ)
    (timeout : ℚ) :
    ∀ (k fuel i : Nat), k < fuel →
      (∀ j, j ≤ k → ∀ c ∈ passClients (i + j), passMeta (i + j) c ≠ title) →
      (∀ j, j < k → ¬ elapsed (i + j) > timeout) →
      elapsed (i + k) > timeout →
      ds9DiscoverLoop passClients passMeta title elapsed timeout fuel i =
        some (.error .ds9NotFound) := by
  intro k
  induction k with
  | zero =>
    intro fuel i hf hmiss hbefore hlate
    obtain ⟨f, rfl⟩ : ∃ f, fuel = f + 1 := ⟨fuel - 1, by omega⟩
    have h0 : get_samp_clientId (passMeta i) title (passClients i) = none := by
      rw [get_samp_clientId_none_iff]
      simpa using hmiss 0 (Nat.le_refl 0)
    have hl : elapsed i > timeout := by simpa using hlate
    simp [ds9DiscoverLoop, h0, hl]
  | succ k ih =>
    intro fuel i hf hmiss hbefore hlate
    obtain ⟨f, rfl⟩ : ∃ f, fuel = f + 1 := ⟨fuel - 1, by omega⟩
    have h0 : get_samp_clientId (passMeta i) title (passClients i) = none := by
      rw [get_samp_clientId_none_iff]
      simpa using hmiss 0 (Nat.zero_le _)
    have hnl : ¬ elapsed i > timeout := by simpa using hbefore 0 (Nat.succ_pos _)
    have hrec := ih f (i + 1) (by omega)
      (fun j hj => by
        have := hmiss (j + 1) (by omega)
        rwa [show i + (j + 1) = i + 1 + j by omega] at this)
      (fun j hj => by
        have := hbefore (j + 1) (by omega)
        rwa [show i + (j + 1) = i + 1 + j by omega] at this)
      (by
        have := hlate
        rwa [show i + (k + 1) = i + 1 + k by omega] at this)
    simp [ds9DiscoverLoop, h0, hnl, hrec]

theorem ds9DiscoverLoop_ok_src (passClients : Nat → List String)
    (passMeta : Nat → String → String) (title : String) (elapsed : Nat → ℚ)
    (timeout : ℚ) :
    ∀ (fuel i : Nat) (cid : String),
      ds9DiscoverLoop passClients passMeta title elapsed timeout fuel i =
        some (.ok cid) →
      cid ≠ "" ∧ ∃ j, i ≤ j ∧
        get_samp_clientId (passMeta j) title (passClients j) = some cid := by
  intro fuel
  induction fuel with
  | zero => intro i cid h; simp [ds9DiscoverLoop] at h
  | succ f ih =>
    intro i cid h
    unfold ds9DiscoverLoop at h
    split at h
    · rename_i cid' hg
      split at h
      · rename_i he
        split at h
        · exact absurd h (by simp)
        · obtain ⟨hne, j, hij, hj⟩ := ih (i + 1) cid h
          exact ⟨hne, j, by omega, hj⟩
      · rename_i he
        have hcc : cid' = cid := by simpa using h
        subst hcc
        exact ⟨he, i, Nat.le_refl i, hg⟩
    · rename_i hg
      split at h
      · exact absurd h (by simp)
      · obtain ⟨hne, j, hij, hj⟩ := ih (i + 1) cid h
        exact ⟨hne, j, by omega, hj⟩

/-- C4: one discovery pass returns the identifier of the first client, in
encounter order, whose advertised `samp.name` equals `title`, and returns
nothing exactly when no client matches; a truthy match ends the wait loop at
once with that identifier (so the bound peer id originates from a pass's
first match and later passes cannot reassign it); and if every pass up to
the deadline finds no match, the loop fails with the ds9-not-found error
once more than `timeout` seconds have elapsed. -/
theorem peer_discovery_first_match (meta : String → String) (title : String)
    (l : List String) (passClients : Nat → List String)
    (passMeta : Nat → String → String) (elapsed : Nat → ℚ) (timeout : ℚ)
    (fuel i : Nat) :
    (∀ cid, get_samp_clientId meta title l = some cid →
      ∃ pre post, l = pre ++ cid :: post ∧ meta cid = title ∧
        ∀ c ∈ pre, meta c ≠ title) ∧
    (get_samp_clientId meta title l = none ↔ ∀ c ∈ l, meta c ≠ title) ∧
    (∀ cid, get_samp_clientId (passMeta i) title (passClients i) = some cid →
      cid ≠ "" →
      ds9DiscoverLoop passClients passMeta title elapsed timeout (fuel + 1) i =
        some (.ok cid)) ∧
    (∀ cid, ds9DiscoverLoop passClients passMeta title elapsed timeout fuel i =
        some (.ok cid) →
      cid ≠ "" ∧ ∃ j, i ≤ j ∧
        get_samp_clientId (passMeta j) title (passClients j) = some cid) ∧
    (∀ k, k < fuel →
      (∀ j, j ≤ k → ∀ c ∈ passClients j, passMeta j c ≠ title) →
      (∀ j, j < k → ¬ elapsed j > timeout) → elapsed k > timeout →
      ds9DiscoverLoop passClients passMeta title elapsed timeout fuel 0 =
        some (.error .ds9NotFound)) := by
  refine ⟨?_, get_samp_clientId_none_iff meta title l, ?_, ?_, ?_⟩
  · intro cid h
    induction l with
    | nil => simp [get_samp_clientId] at h
    | cons c rest ih =>
      by_cases hc : meta c = title
      · simp only [get_samp_clientId, if_pos hc, Option.some.injEq] at h
        subst h
        exact ⟨[], rest, rfl, hc, by simp⟩
      · simp only [get_samp_clientId, if_neg hc] at h
        obtain ⟨pre, post, hl, hm, hpre⟩ := ih h
        refine ⟨c :: pre, post, by simp [hl], hm, ?_⟩
        intro x hx
        rcases List.mem_cons.mp hx with h1 | h2
        · simpa [h1] using hc
        · exact hpre x h2
  · intro cid h hne
    simp [ds9DiscoverLoop, h, hne]
  · exact fun cid h => ds9DiscoverLoop_ok_src passClients passMeta title
      elapsed timeout fuel i cid h
  · intro k hk hmiss hbefore hlate
    exact ds9DiscoverLoop_timeout passClients passMeta title elapsed timeout
      k fuel 0 hk (fun j hj => by simpa using hmiss j hj)
      (fun j hj => by simpa using hbefore j hj) (by simpa using hlate)

/-- Witness for C4 on a two-client hub snapshot: the first client whose name
matches wins; a matching pass ends the loop with that identifier; persistent
no-match passes end in the ds9-not-found error after the deadline. -/
theorem peer_discovery_first_match_witness :
    (∃ pre post, ["c1", "c2"] = pre ++ "c2" :: post ∧
      (if "c2" = "c2" then "ds9w" else "x") = "ds9w" ∧
      ∀ c ∈ pre, (if c = "c2" then "ds9w" else "x") ≠ "ds9w") ∧
    ds9DiscoverLoop (fun _ => ["c1", "c2"])
      (fun _ c => if c = "c2" then "ds9w" else "x") "ds9w" (fun _ => 0) 3 4 0 =
      some (.ok "c2") ∧
    ds9DiscoverLoop (fun _ => ["c1"]) (fun _ _ => "x") "ds9w"
      (fun j => (j : ℚ) * 2) 3 4 0 = some (.error .ds9NotFound) :=
  ⟨(peer_discovery_first_match (fun c => if c = "c2" then "ds9w" else "x") "ds9w"
      ["c1", "c2"] (fun _ => ["c1", "c2"])
      (fun _ c => if c = "c2" then "ds9w" else "x") (fun _ => 0) 3 3 0).1
      "c2" (by decide),
   (peer_discovery_first_match (fun c => if c = "c2" then "ds9w" else "x") "ds9w"
      ["c1", "c2"] (fun _ => ["c1", "c2"])
      (fun _ c => if c = "c2" then "ds9w" else "x") (fun _ => 0) 3 3 0).2.2.1
      "c2" (by decide) (by decide),
   (peer_discovery_first_match (fun _ => "x") "ds9w" [] (fun _ => ["c1"])
      (fun _ _ => "x") (fun j => (j : ℚ) * 2) 3 4 0).2.2.2.2 2 (by norm_num)
      (fun j _ c hc => by
        simp at hc
        subst hc
        decide)
      (fun j hj => by interval_cases j <;> norm_num)
      (by norm_num)⟩

theorem setLoop_all_ok (ack : Nat → Option PyExc) :
    ∀ (cmds : List String) (k : Nat),
      (∀ j, j < cmds.length → ack (k + j) = none) →
      setLoop ack k cmds = (.ok (), cmds) := by
  intro cmds
  induction cmds with
  | nil => intro k _; rfl
  | cons c rest ih =>
    intro k hall
    have h0 : ack k = none := by simpa using hall 0 (Nat.succ_pos _)
    have hrec := ih (k + 1) (fun j hj => by
      have := hall (j + 1) (by simpa using Nat.succ_lt_succ hj)
      rwa [show k + (j + 1) = k + 1 + j by omega] at this)
    simp [setLoop, h0, hrec]

theorem setLoop_fail_at (ack : Nat → Option PyExc) :
    ∀ (cmds : List String) (k n : Nat) (e : PyExc), n < cmds.length →
      (∀ j, j < n → ack (k + j) = none) → ack (k + n) = some e →
      setLoop ack k cmds = (.error e, cmds.take (n + 1)) := by
  intro cmds
  induction cmds with
  | nil => intro k n e hn _ _; simp at hn
  | cons c rest ih =>
    intro k n e hn hok hfail
    cases n with
    | zero =>
      have h0 : ack k = some e := by simpa using hfail
      simp [setLoop, h0]
    | succ n' =>
      have h0 : ack k = none := by simpa using hok 0 (Nat.succ_pos _)
      have hrec := ih (k + 1) n' e (by simpa using Nat.lt_of_succ_lt_succ hn)
        (fun j hj => by
          have := hok (j + 1) (by omega)
          rwa [show k + (j + 1) = k + 1 + j by omega] at this)
        (by rwa [show k + (n' + 1) = k + 1 + n' by omega] at hfail)
      simp [setLoop, h0, hrec]

/-- C5: one `set(cmd...)` call issues its commands to the peer's `ds9.set`
capability strictly in the given order while holding `commandLock` (the
trace is lock-acquire, then the issued calls, then lock-release, on the
failure path too): if every call is acknowledged, exactly the given sequence
is issued in order; if the k-th call fails after the earlier ones were
acknowledged, exactly the first k+1 commands were issued — every earlier
command already acknowledged, no later command issued — and the error
propagates to the caller. -/
theorem set_commands_in_order (ack : Nat → Option PyExc) (cmds : List String) :
    ((∀ j, j < cmds.length → ack j = none) →
      DS9set ack cmds = (.ok (), GwEvent.lockAcquire ::
        (cmds.map (fun c => GwEvent.call "ds9.set" c) ++ [GwEvent.lockRelease]))) ∧
    (∀ n e, n < cmds.length → (∀ j, j < n → ack j = none) → ack n = some e →
      DS9set ack cmds = (.error e, GwEvent.lockAcquire ::
        ((cmds.take (n + 1)).map (fun c => GwEvent.call "ds9.set" c) ++
          [GwEvent.lockRelease]))) := by
  constructor
  · intro hall
    have := setLoop_all_ok ack cmds 0 (fun j hj => by simpa using hall j hj)
    simp [DS9set, this]
  · intro n e hn hok hfail
    have := setLoop_fail_at ack cmds 0 n e hn
      (fun j hj => by simpa using hok j hj) (by simpa using hfail)
    simp [DS9set, this]

/-- Witness for C5: with `set("a", "b")`, an all-acknowledging peer sees the
two calls in order; a peer rejecting the second command still first
acknowledges "a", and "b" is the last command issued. -/
theorem set_commands_in_order_witness :
    DS9set (fun _ => none) ["a", "b"] = (.ok (), GwEvent.lockAcquire ::
      ([GwEvent.call "ds9.set" "a", GwEvent.call "ds9.set" "b"] ++
        [GwEvent.lockRelease])) ∧
    DS9set (fun j => if j = 1 then some (.exc 3) else none) ["a", "b"] =
      (.error (.exc 3), GwEvent.lockAcquire ::
        ([GwEvent.call "ds9.set" "a", GwEvent.call "ds9.set" "b"] ++
          [GwEvent.lockRelease])) :=
  ⟨by
    have h := (set_commands_in_order (fun _ => none) ["a", "b"]).1
      (fun j _ => rfl)
    simpa using h,
   by
    have h := (set_commands_in_order (fun j => if j = 1 then some (.exc 3) else none)
      ["a", "b"]).2 1 (.exc 3) (by decide)
      (fun j hj => by interval_cases j <;> rfl) (by decide)
    simpa using h⟩

/-- C6: at each watchdog iteration, a set exit signal ends the loop with no
further ping; an unset signal leads to a probe issued under `commandLock`,
after which the loop continues exactly when the probe succeeds — success
meaning the probe returned the peer's own OK acknowledgment, any raised
exception or other return value counting as failure and ending the loop;
and whichever way the loop ends, the watchdog calls teardown with
`main_thread=False`, whose step sequence does not contain the join of the
watcher itself. -/
theorem watchdog_loop_behavior (iter : Nat → WatchIter) (fuel i : Nat)
    (p : Except PyExc String) (cfg : ExitCfg) :
    (aliveModel p = true ↔ p = .ok "OK") ∧
    ((iter i).signalSet = true → watchLoop iter (fuel + 1) i = some ([], true)) ∧
    ((iter i).signalSet = false →
      aliveEvents (iter i).ping = [.lockAcquire, .notifyPing, .lockRelease] ∧
      (aliveModel (iter i).ping = false →
        watchLoop iter (fuel + 1) i = some ([i], false)) ∧
      (aliveModel (iter i).ping = true →
        watchLoop iter (fuel + 1) i =
          (watchLoop iter fuel (i + 1)).map (fun r => (i :: r.1, r.2)))) ∧
    (∀ r, watchLoop iter fuel 0 = some r → watchThread iter fuel = some (r, true, false)) ∧
    TeardownStep.joinWatcher ∉ exitSteps cfg false := by
  refine ⟨?_, ?_, ?_, ?_, ?_⟩
  · cases p with
    | ok s =>
      simp only [aliveModel]
      constructor
      · intro h
        have : s = "OK" := by simpa using h
        simp [this]
      · intro h
        have : s = "OK" := by simpa using h
        simp [this]
    | error e => simp [aliveModel]
  · intro h; simp [watchLoop, h]
  · intro h
    refine ⟨by cases hp : (iter i).ping <;> simp [aliveEvents], ?_, ?_⟩
    · intro ha; simp [watchLoop, h, ha]
    · intro ha; simp [watchLoop, h, ha]
  · intro r h; simp [watchThread, h]
  · obtain ⟨cb, ko⟩ := cfg
    cases cb <;> cases ko <;> decide

/-- Witness for C6: a signal set at iteration 0 stops the loop with no ping;
with the signal unset, an OK probe continues and a failing probe stops the
loop; the thread then invokes teardown with `main_thread=False`. -/
theorem watchdog_loop_behavior_witness :
    watchLoop (fun _ => ⟨true, .ok "OK"⟩) 3 0 = some ([], true) ∧
    watchLoop (fun j => ⟨false, if j = 0 then .ok "OK" else .error (.exc 1)⟩) 3 1 =
      some ([1], false) ∧
    watchThread (fun _ => ⟨true, .ok "OK"⟩) 3 = some (([], true), true, false) :=
  ⟨(watchdog_loop_behavior (fun _ => ⟨true, .ok "OK"⟩) 2 0 (.ok "OK") ⟨false, false⟩).2.1 rfl,
   ((watchdog_loop_behavior (fun j => ⟨false, if j = 0 then .ok "OK" else .error (.exc 1)⟩)
      2 1 (.ok "OK") ⟨false, false⟩).2.2.1 rfl).2.1 (by decide),
   (watchdog_loop_behavior (fun _ => ⟨true, .ok "OK"⟩) 2 0 (.ok "OK") ⟨false, false⟩).2.2.2.1
      ([], true)
      ((watchdog_loop_behavior (fun _ => ⟨true, .ok "OK"⟩) 2 0 (.ok "OK") ⟨false, false⟩).2.1 rfl)⟩

theorem DS9initBody_ok_state (title : String) (timeout poll_alive_time : ℚ)
    (base : List Char) (d : DateSec) (micro pid : Nat) (env : InitEnv) (fuel : Nat)
    (st : DS9State)
    (h : DS9initBody title timeout poll_alive_time base d micro pid env fuel =
      some (.ok st)) :
    st.processSpawned = true ∧ st.sampConnected = true ∧
    (poll_alive_time > 0 → st.watcherStarted = true) ∧
    ∃ cid, ds9DiscoverLoop env.passClients env.passMeta title env.discElapsed
        timeout fuel 0 = some (.ok cid) ∧ st.samp_clientId = some cid := by
  unfold DS9initBody at h
  split at h
  · simp at h
  · split at h
    · simp at h
    · split at h
      · simp at h
      · simp at h
      · split at h
        · simp at h
        · simp at h
        · rename_i cid hdisc
          split at h
          · rename_i hpoll
            split at h
            · simp at h
            · simp only [Option.some.injEq, Except.ok.injEq] at h
              subst h
              exact ⟨rfl, rfl, fun _ => rfl, cid, hdisc, rfl⟩
          · rename_i hpoll
            simp only [Option.some.injEq, Except.ok.injEq] at h
            subst h
            exact ⟨rfl, rfl, fun hp => absurd hp hpoll, cid, hdisc, rfl⟩

/-- C2: any exception raised in a construction phase makes the constructor
run the full teardown procedure (all applicable steps attempted, whatever
individually fails) and then re-raise that same exception; and a successful
construction returns a fully-initialized state: process spawned, hub
connection established, a discovered `peerId` bound, and — whenever a
positive poll period is configured — the watchdog started. -/
theorem init_teardown_before_reraise (title : String) (timeout poll_alive_time : ℚ)
    (base : List Char) (d : DateSec) (micro pid : Nat) (cfg : ExitCfg)
    (env : InitEnv) (fuel : Nat) :
    (∀ e, DS9initBody title timeout poll_alive_time base d micro pid env fuel =
        some (.error e) →
      DS9init title timeout poll_alive_time base d micro pid cfg env fuel =
        some (.error (e, exitTrace cfg env.teardown true)) ∧
      (exitTrace cfg env.teardown true).map Prod.fst = exitSteps cfg true) ∧
    (∀ st, DS9initBody title timeout poll_alive_time base d micro pid env fuel =
        some (.ok st) →
      DS9init title timeout poll_alive_time base d micro pid cfg env fuel =
        some (.ok st) ∧
      st.processSpawned = true ∧ st.sampConnected = true ∧
      st.samp_clientId.isSome = true ∧
      (poll_alive_time > 0 → st.watcherStarted = true)) := by
  constructor
  · intro e h
    refine ⟨?_, exitTrace_steps cfg env.teardown true⟩
    simp [DS9init, h, DS9exit_spec]
  · intro st h
    obtain ⟨hp, hc, hw, cid, hdisc, hcid⟩ :=
      DS9initBody_ok_state title timeout poll_alive_time base d micro pid env fuel st h
    exact ⟨by simp [DS9init, h], hp, hc, by simp [hcid], hw⟩

/-- Witness for C2: a failing endpoint-setup phase re-raises its exception
after a full teardown; the all-successful environment yields the fully
initialized state. -/
theorem init_teardown_before_reraise_witness :
    (DS9initBody "ds9w" 15 5 "/h".data dEx 1 2 envFailEx 3 = some (.error (.exc 7)) ∧
      DS9init "ds9w" 15 5 "/h".data dEx 1 2 ⟨true, false⟩ envFailEx 3 =
        some (.error (.exc 7, exitTrace ⟨true, false⟩ (fun _ => none) true))) ∧
    (DS9initBody "ds9w" 15 5 "/h".data dEx 1 2 envOkEx 3 = some (.ok stEx) ∧
      DS9init "ds9w" 15 5 "/h".data dEx 1 2 ⟨true, false⟩ envOkEx 3 = some (.ok stEx) ∧
      stEx.samp_clientId.isSome = true) := by
  have hfail : DS9initBody "ds9w" 15 5 "/h".data dEx 1 2 envFailEx 3 =
      some (.error (.exc 7)) := rfl
  have hok : DS9initBody "ds9w" 15 5 "/h".data dEx 1 2 envOkEx 3 =
      some (.ok stEx) := rfl
  refine ⟨⟨hfail, ?_⟩, hok, ?_, ?_⟩
  · exact ((init_teardown_before_reraise "ds9w" 15 5 "/h".data dEx 1 2
      ⟨true, false⟩ envFailEx 3).1 (.exc 7) hfail).1
  · exact ((init_teardown_before_reraise "ds9w" 15 5 "/h".data dEx 1 2
      ⟨true, false⟩ envOkEx 3).2 stEx hok).1
  · exact ((init_teardown_before_reraise "ds9w" 15 5 "/h".data dEx 1 2
      ⟨true, false⟩ envOkEx 3).2 stEx hok).2.2.2.1

end Ds9SAMP

